import Mathlib

/-!
# Verification of the dockermon restart-policy engine

A shallow embedding of the event-to-action decision engine of the
dockermon repository (dockermon.py, restartservice.py, eventbroadcaster.py,
dockerevent.py) together with proofs about it.

Modelling conventions:
* Timestamps (`time.time()` values and the `time` field of docker events)
  are integers (docker event `time` fields are integer seconds since the
  epoch, and `time.time()` values enter the logic only through differences
  and order comparisons, which the integer model preserves); thresholds
  configured in minutes are integers as well.
* Python dictionaries keyed by container name become association lists
  with first-match lookup and in-place update, which has the same
  observable lookup behaviour.
* `filter` is modelled with Python 2 list semantics (the modules import
  `httplib`, which only exists on Python 2, and the Python 3 branch of
  dockermon.py does not even import `NO_CONTENT`, so the restart path only
  runs on Python 2, where `filter` returns a list and its truthiness is
  non-emptiness).
* Compiled regular-expression patterns from the configuration are
  modelled by their match semantics, i.e. as Boolean predicates on
  container names (the regex engine is the external `re` library).
* I/O boundaries (the docker socket, SMTP) are represented by explicit
  inputs (the HTTP status the engine answers with) and outputs (a list of
  `Action`s: restart requests issued and mails handed to the notifier).
  Python exceptions (`KeyError`, `IndexError`, `DockermonError`) become an
  `Option PyErr` component of the result.
-/

namespace Dockermon

/-- Python exceptions that the modelled code paths can raise. -/
inductive PyErr where
  | keyError : PyErr
  | indexError : PyErr
  | dockermonError : PyErr
deriving Repr, DecidableEq

/-- `RestartData` (dockermon.py 63–80, restartservice.py 27–44): restart
bookkeeping for one container.  `formatted_occasions` is a display-only
mirror of `occasions` and is not modelled. -/
structure RestartData where
  container_name : String
  occasions : List ℤ
  mail_sent : Bool
deriving Repr, DecidableEq

/-- `RestartData(container_name)` — the fresh record with no occasions,
also produced by `reset_restart_data`. -/
def RestartData.fresh (c : String) : RestartData :=
  { container_name := c, occasions := [], mail_sent := false }

/-- `RestartData(container_name, timestamp)` — record created on a first
restart occasion. -/
def RestartData.withFirst (c : String) (t : ℤ) : RestartData :=
  { container_name := c, occasions := [t], mail_sent := false }

/-- `RestartData.add_restart_occasion`. -/
def RestartData.add_restart_occasion (r : RestartData) (t : ℤ) : RestartData :=
  { r with occasions := r.occasions ++ [t] }

/-- The restart-related configuration (`RestartParameters` in
restartservice.py 20–25; the same `args.restart_*` values in dockermon.py).
A compiled pattern is modelled as the predicate `name ↦ bool(p.match(name))`. -/
structure RestartParameters where
  limit : Nat
  threshold : ℤ
  reset_period : ℤ
  containers_to_restart : List (String → Bool)

instance {ε α : Type} [DecidableEq ε] [DecidableEq α] :
    DecidableEq (Except ε α) := fun x y =>
  match x, y with
  | .ok a, .ok b =>
      if h : a = b then .isTrue (by rw [h])
      else .isFalse (by intro hh; cases hh; exact h rfl)
  | .error a, .error b =>
      if h : a = b then .isTrue (by rw [h])
      else .isFalse (by intro hh; cases hh; exact h rfl)
  | .ok _, .error _ => .isFalse (by intro hh; cases hh)
  | .error _, .ok _ => .isFalse (by intro hh; cases hh)

/-- Python dictionary assignment `d[k] = v` on an association list. -/
def assocUpd {α : Type} : List (String × α) → String → α → List (String × α)
  | [], k, v => [(k, v)]
  | (k', v') :: rest, k, v =>
      if k' = k then (k, v) :: rest else (k', v') :: assocUpd rest k v

/-- The container-to-restart-record dictionary
(`DockerMon.container_restarts` / `RestartService.restarts`). -/
abbrev Restarts := List (String × RestartData)

/-- Python slice `xs[-k:]`: the last `k` elements; the whole list when
`k = 0` (`xs[-0:]` is `xs[0:]`) or when `k ≥ len(xs)`. -/
def lastSlice {α : Type} (xs : List α) (k : Nat) : List α :=
  if k = 0 then xs else xs.drop (xs.length - k)

/-- `DockerMon.is_restart_allowed` (dockermon.py 359–369) =
`RestartService.is_restart_allowed` (restartservice.py 196–206), as a
function of the record's occasion list (the record is created empty by
`get_performed_restart_count` when absent, so an absent record corresponds
to `occasions = []`).  The loop `for r in last_restarts: if r <
restart_range_start: return False` followed by `return restart_count <
restart_limit`. -/
def is_restart_allowed (occasions : List ℤ) (limit : Nat) (threshold : ℤ)
    (now : ℤ) : Bool :=
  let restart_count := occasions.length
  let last_restarts := lastSlice occasions limit
  let restart_range_start := now - threshold * 60
  if last_restarts.any (fun r => r < restart_range_start) then false
  else restart_count < limit

namespace DockerMon

/-- `DockerMon.maintain_container_restarts` (dockermon.py 371–380): on a
start event, reset the record when the last occasion is older than
`restart_reset_period` minutes.  `occasions[-1]` raises `IndexError` on an
empty list. -/
def maintain_container_restarts (restarts : Restarts) (container_name : String)
    (now reset_period : ℤ) : Except PyErr Restarts :=
  match restarts.lookup container_name with
  | none => .ok restarts
  | some r =>
    match r.occasions.getLast? with
    | none => .error .indexError
    | some last_restart =>
      let restart_reset_range_start := now - reset_period * 60
      if last_restart < restart_reset_range_start then
        .ok (assocUpd restarts container_name (RestartData.fresh container_name))
      else
        .ok restarts

end DockerMon

namespace RestartService

/-- `RestartService.maintain_container_restarts` (restartservice.py
208–220): computes `restart_duration = now - last_restart` and resets when
`restart_duration < reset_period * 60` — note the direction of the
comparison relative to the dockermon.py version. -/
def maintain_container_restarts (restarts : Restarts) (container_name : String)
    (now reset_period : ℤ) : Except PyErr Restarts :=
  match restarts.lookup container_name with
  | none => .ok restarts
  | some r =>
    match r.occasions.getLast? with
    | none => .error .indexError
    | some last_restart =>
      let restart_duration := now - last_restart
      let needs_counter_reset := restart_duration < reset_period * 60
      if needs_counter_reset then
        .ok (assocUpd restarts container_name (RestartData.fresh container_name))
      else
        .ok restarts

end RestartService

section IsRestartAllowedFacts

/-- C2, counterexample: with a single recorded occasion of age well beyond
the threshold window (occasions `[0]`, limit 3, threshold 10 minutes, now
1000 s), fewer than `restart_limit` occasions are recorded, so the claim
demands `true`, yet one of the last occasions is older than the threshold
and the code returns `false`: the claimed biconditional fails. -/
theorem c2_is_restart_allowed_counterexample :
    ¬ (is_restart_allowed [0] 3 10 1000 = true ↔
        ((List.length ([0] : List ℤ) < 3) ∨
          ∃ r ∈ lastSlice ([0] : List ℤ) 3, r < 1000 - 10 * 60)) := by
  decide

/-- Characterization of `is_restart_allowed`: true iff fewer than
`restart_limit` occasions are recorded and none of the last `restart_limit`
occasions is older than `restart_threshold` minutes. -/
theorem is_restart_allowed_spec (occasions : List ℤ) (limit : Nat)
    (threshold now : ℤ) :
    is_restart_allowed occasions limit threshold now = true ↔
      (occasions.length < limit ∧
        ∀ r ∈ lastSlice occasions limit, now - threshold * 60 ≤ r) := by
  simp only [is_restart_allowed]
  split
  · next h =>
    simp only [Bool.false_eq_true, false_iff, not_and, not_forall]
    intro _
    simp only [List.any_eq_true, decide_eq_true_eq] at h
    obtain ⟨r, hr, hlt⟩ := h
    exact ⟨r, hr, by simpa using not_le.mpr hlt⟩
  · next h =>
    simp only [List.any_eq_true, decide_eq_true_eq, not_exists, not_and] at h
    simp only [decide_eq_true_eq]
    constructor
    · intro hlt
      exact ⟨hlt, fun r hr => not_lt.mp (h r hr)⟩
    · intro ⟨hlt, _⟩
      exact hlt

/-- C2, amended: `is_restart_allowed` returns true iff fewer than
`restart_limit` occasions are recorded **and** none of the last
`restart_limit` occasions is older than `restart_threshold` minutes; once
`restart_limit` occasions are recorded it is false regardless of their
ages, and with fewer occasions it is still false when one of them is
stale. -/
theorem c2_is_restart_allowed_iff (occasions : List ℤ) (limit : Nat)
    (threshold now : ℤ) :
    is_restart_allowed occasions limit threshold now = true ↔
      (occasions.length < limit ∧
        ∀ r ∈ lastSlice occasions limit, now - threshold * 60 ≤ r) :=
  is_restart_allowed_spec occasions limit threshold now

/-- Witness for `c2_is_restart_allowed_iff` at a concrete input. -/
theorem c2_is_restart_allowed_iff_witness :
    is_restart_allowed [5] 3 10 100 = true ↔
      ((List.length ([5] : List ℤ) < 3) ∧
        ∀ r ∈ lastSlice ([5] : List ℤ) 3, 100 - 10 * 60 ≤ r) :=
  c2_is_restart_allowed_iff [5] 3 10 100

end IsRestartAllowedFacts

section MaintainFacts

/-- C4: on a record whose single restart occasion is 1 second old (well
within the reset period of 2 minutes) a start event must, per the claim,
leave the record entirely unchanged — `DockerMon.maintain_container_restarts`
does, but `RestartService.maintain_container_restarts` clears it. -/
theorem c4_restartservice_clears_fresh_record :
    RestartService.maintain_container_restarts
        [("c", ⟨"c", [100], true⟩)] "c" 101 2 =
      .ok [("c", RestartData.fresh "c")] ∧
    DockerMon.maintain_container_restarts
        [("c", ⟨"c", [100], true⟩)] "c" 101 2 =
      .ok [("c", ⟨"c", [100], true⟩)] := by
  constructor <;> decide

/-- C9: the two implementations of the counter-maintenance routine take
opposite actions on the same input: with a last restart 10 seconds old and
a reset period of 2 minutes, the dockermon.py version leaves the record
alone while the restartservice.py version clears it. -/
theorem c9_maintain_implementations_differ :
    DockerMon.maintain_container_restarts
        [("web", ⟨"web", [200], false⟩)] "web" 210 2 ≠
      RestartService.maintain_container_restarts
        [("web", ⟨"web", [200], false⟩)] "web" 210 2 := by
  decide

end MaintainFacts

/-- The memo dictionary `cached_container_names = {'restart': [],
'do_not_restart': []}` (dockermon.py 92, restartservice.py 63). -/
structure NameCache where
  restart : List String
  do_not_restart : List String
deriving Repr, DecidableEq

/-- `DockerMon.check_container_is_restartable` (dockermon.py 247–265) =
`RestartService.check_container_is_restartable` (restartservice.py
175–194): cached names answer immediately; otherwise the configured
patterns are tried in order, and the name is appended to the matching
cache list. -/
def check_container_is_restartable (params : RestartParameters)
    (cache : NameCache) (container_name : String) : Bool × NameCache :=
  if container_name ∈ cache.restart then
    (true, cache)
  else if container_name ∈ cache.do_not_restart then
    (false, cache)
  else if params.containers_to_restart.any (fun p => p container_name) then
    (true, { cache with restart := cache.restart ++ [container_name] })
  else
    (false, { cache with do_not_restart := cache.do_not_restart ++ [container_name] })

/-- A cache is consistent when every cached decision agrees with the
pattern list.  The empty cache the process starts with is consistent, and
(part of the C8 theorem) every lookup preserves consistency. -/
def NameCacheConsistent (params : RestartParameters) (cache : NameCache) : Prop :=
  (∀ n ∈ cache.restart,
      params.containers_to_restart.any (fun p => p n) = true) ∧
  (∀ n ∈ cache.do_not_restart,
      params.containers_to_restart.any (fun p => p n) = false)

section CacheFacts

/-- C8: starting from any consistent cache (in particular the empty one),
`check_container_is_restartable` returns true iff some configured pattern
matches the name; the resulting cache is again consistent, holds the name
in exactly one of the two lists, and any subsequent lookup of the same
name — even with a completely different pattern list, i.e. without the
pattern match being re-run — returns the same answer and leaves the cache
unchanged. -/
theorem c8_restartable_iff_pattern_and_memoized (params : RestartParameters)
    (cache : NameCache) (c : String)
    (hc : NameCacheConsistent params cache) :
    ((check_container_is_restartable params cache c).1 = true ↔
        params.containers_to_restart.any (fun p => p c) = true) ∧
    NameCacheConsistent params (check_container_is_restartable params cache c).2 ∧
    (c ∈ (check_container_is_restartable params cache c).2.restart ∨
      c ∈ (check_container_is_restartable params cache c).2.do_not_restart) ∧
    ¬ (c ∈ (check_container_is_restartable params cache c).2.restart ∧
        c ∈ (check_container_is_restartable params cache c).2.do_not_restart) ∧
    (∀ qs : List (String → Bool),
      check_container_is_restartable { params with containers_to_restart := qs }
          (check_container_is_restartable params cache c).2 c =
        check_container_is_restartable params cache c) := by
  obtain ⟨hr, hd⟩ := hc
  by_cases h1 : c ∈ cache.restart
  · simp only [check_container_is_restartable, if_pos h1]
    refine ⟨by simp [hr c h1], ⟨hr, hd⟩, Or.inl h1, ?_, fun qs => by simp [h1]⟩
    rintro ⟨-, h2⟩
    exact absurd (hr c h1) (by simp [hd c h2])
  · by_cases h2 : c ∈ cache.do_not_restart
    · simp only [check_container_is_restartable, if_neg h1, if_pos h2]
      refine ⟨by simp [hd c h2], ⟨hr, hd⟩, Or.inr h2, ?_, fun qs => by simp [h1, h2]⟩
      rintro ⟨h1', -⟩
      exact h1 h1'
    · by_cases hm : params.containers_to_restart.any (fun p => p c) = true
      · simp only [check_container_is_restartable, if_neg h1, if_neg h2, if_pos hm]
        refine ⟨by simp [hm], ⟨?_, hd⟩, Or.inl (by simp), ?_, fun qs => by simp⟩
        · intro n hn
          rcases List.mem_append.mp hn with hn | hn
          · exact hr n hn
          · simpa [List.mem_singleton.mp hn] using hm
        · rintro ⟨-, h2'⟩
          exact h2 h2'
      · simp only [check_container_is_restartable, if_neg h1, if_neg h2, if_neg hm]
        refine ⟨by simp [Bool.eq_false_iff.mpr hm], ⟨hr, ?_⟩, Or.inr (by simp),
          ?_, fun qs => by simp [h1]⟩
        · intro n hn
          rcases List.mem_append.mp hn with hn | hn
          · exact hd n hn
          · simpa [List.mem_singleton.mp hn] using Bool.eq_false_iff.mpr hm
        · rintro ⟨h1', -⟩
          exact h1 h1'

/-- Witness for `c8_restartable_iff_pattern_and_memoized`: one pattern
matching exactly the name `web`, looked up from the empty cache. -/
theorem c8_restartable_witness :
    ((check_container_is_restartable
        ⟨3, 10, 2, [fun s => s = "web"]⟩ ⟨[], []⟩ "web").1 = true ↔
        ([fun s : String => decide (s = "web")].any (fun p => p "web")) = true) ∧
    NameCacheConsistent ⟨3, 10, 2, [fun s => s = "web"]⟩
      (check_container_is_restartable
        ⟨3, 10, 2, [fun s => s = "web"]⟩ ⟨[], []⟩ "web").2 ∧
    ("web" ∈ (check_container_is_restartable
        ⟨3, 10, 2, [fun s => s = "web"]⟩ ⟨[], []⟩ "web").2.restart ∨
      "web" ∈ (check_container_is_restartable
        ⟨3, 10, 2, [fun s => s = "web"]⟩ ⟨[], []⟩ "web").2.do_not_restart) ∧
    ¬ ("web" ∈ (check_container_is_restartable
        ⟨3, 10, 2, [fun s => s = "web"]⟩ ⟨[], []⟩ "web").2.restart ∧
        "web" ∈ (check_container_is_restartable
        ⟨3, 10, 2, [fun s => s = "web"]⟩ ⟨[], []⟩ "web").2.do_not_restart) ∧
    (∀ qs : List (String → Bool),
      check_container_is_restartable
          { (⟨3, 10, 2, [fun s => s = "web"]⟩ : RestartParameters) with
            containers_to_restart := qs }
          (check_container_is_restartable
            ⟨3, 10, 2, [fun s => s = "web"]⟩ ⟨[], []⟩ "web").2 "web" =
        check_container_is_restartable
          ⟨3, 10, 2, [fun s => s = "web"]⟩ ⟨[], []⟩ "web") :=
  c8_restartable_iff_pattern_and_memoized ⟨3, 10, 2, [fun s => s = "web"]⟩
    ⟨[], []⟩ "web" (by constructor <;> simp [NameCacheConsistent])

end CacheFacts

/-- `DockerEvent` as saved into the per-container history (dockermon.py
51–60, eventbroadcaster.py 11–20).  `formatted_time` is a display-only
mirror of `time` and is not modelled. -/
structure DockerEvent where
  type : String
  container_name : String
  time : ℤ
deriving Repr, DecidableEq

/-- The fields of the raw JSON event object that the modelled code paths
read.  `none` models the key being absent from the JSON (`id`, `name` and
`time` are always read unconditionally on the modelled paths, so they are
total fields). -/
structure RawEvent where
  status : Option String
  id : String
  name : String
  time : ℤ
  compose_service : Option String
  swarm_service : Option String
deriving Repr, DecidableEq

/-- Externally observable outputs of the policy engine: a `POST
/containers/<id>/restart` request handed to the engine, and the two mails
handed to the notifier (`Restarting container ...` and `Maximum restart
count is reached ...`). -/
inductive Action where
  | restartRequest (container_id : String) : Action
  | successMail (container_name : String) : Action
  | limitReachedMail (container_name : String) : Action
deriving Repr, DecidableEq

/-- `DockerMon.event_types_to_watch` (dockermon.py 84). -/
def event_types_to_watch : List String := ["die", "stop", "kill", "start"]

/-- `DockerMon.event_type_matches` (dockermon.py 321–324): the Python
function returns `True`/`None`; its truthiness is the equality. -/
def event_type_matches (e : DockerEvent) (event_type : String) : Bool :=
  e.type = event_type

/-- `DockerMon.event_type_matches_one_of` (dockermon.py 326–331). -/
def event_type_matches_one_of (e : DockerEvent) (event_types : List String) : Bool :=
  event_types.any (fun t => e.type = t)

/-- `DockerMon.event_max_age_in_seconds` (dockermon.py 315–319): truthy iff
`now - ev.time <= max_age_in_seconds`. -/
def event_max_age_in_seconds (e : DockerEvent) (max_age_in_seconds now : ℤ) : Bool :=
  now - e.time ≤ max_age_in_seconds

/-- Python substring containment `needle in hay`, on character lists. -/
def listHasSub (needle : List Char) : List Char → Bool
  | [] => needle.isEmpty
  | c :: rest => needle.isPrefixOf (c :: rest) || listHasSub needle rest

/-- Python substring containment `needle in hay` on strings, as used in
`"health_status: unhealthy" in event_status`. -/
def strContains (needle hay : String) : Bool :=
  listHasSub needle.toList hay.toList

/-- The per-container event history dictionary (`DockerMon.event_dict` /
`RestartService.captured_events` / `EventBroadcaster.captured_events`). -/
abbrev CapturedEvents := List (String × List DockerEvent)

/-- `save_docker_event` (dockermon.py 94–99, restartservice.py 72–77,
eventbroadcaster.py 56–62). -/
def save_docker_event (m : CapturedEvents) (e : DockerEvent) : CapturedEvents :=
  match m.lookup e.container_name with
  | none => assocUpd m e.container_name [e]
  | some evs => assocUpd m e.container_name (evs ++ [e])

/-- The record-creating side effect of `get_performed_restart_count`
(dockermon.py 108–112, restartservice.py 166–170): an absent record is
replaced by a fresh empty one. -/
def ensure_record (restarts : Restarts) (c : String) : Restarts :=
  match restarts.lookup c with
  | none => assocUpd restarts c (RestartData.fresh c)
  | some _ => restarts

/-- `check_restart_needed` (dockermon.py 280–313 = restartservice.py
105–133) as a function of the container's saved event list.  It returns
the truthiness of the Python result (`True`, or `False`/`None`), the
restart dictionary after the side effects of `get_performed_restart_count`
and of the mail latch, and the mails handed to the notifier. -/
def check_restart_needed (params : RestartParameters)
    (docker_events : List DockerEvent) (restarts : Restarts)
    (container_name : String) (now : ℤ) : Bool × Restarts × List Action :=
  if docker_events.isEmpty then (false, restarts, [])
  else
    let die_events :=
      (docker_events.filter (fun e => event_type_matches e "die")).filter
        (fun e => event_max_age_in_seconds e 5 now)
    if die_events.isEmpty then (false, restarts, [])
    else
      let stop_or_kill_events :=
        (docker_events.filter
            (fun e => event_type_matches_one_of e ["stop", "kill"])).filter
          (fun e => event_max_age_in_seconds e 12 now)
      if ¬ stop_or_kill_events.isEmpty then (false, restarts, [])
      else
        let restarts1 := ensure_record restarts container_name
        match restarts1.lookup container_name with
        | none => (false, restarts1, [])
        | some r =>
          if is_restart_allowed r.occasions params.limit params.threshold now then
            (true, restarts1, [])
          else if r.mail_sent then
            (false, restarts1, [])
          else
            (false,
              assocUpd restarts1 container_name { r with mail_sent := true },
              [.limitReachedMail container_name])

/-- `save_restart_occasion` (dockermon.py 101–106, restartservice.py
159–164). -/
def save_restart_occasion (restarts : Restarts) (container_name : String)
    (now : ℤ) : Restarts :=
  match restarts.lookup container_name with
  | none =>
      assocUpd restarts container_name (RestartData.withFirst container_name now)
  | some r => assocUpd restarts container_name (r.add_restart_occasion now)

/-- `RestartService.handle_restart_request` (restartservice.py 233–245) =
the response handling of `DockerMon.restart_callback` (dockermon.py
344–357), as a function of the HTTP status the engine answers: on `204 No
Content` record the occasion and send the success mail, otherwise raise
`DockermonError` leaving the restart dictionary untouched. -/
def handle_restart_request (restarts : Restarts) (container_name : String)
    (now : ℤ) (status : Nat) : Restarts × List Action × Option PyErr :=
  if status = 204 then
    (save_restart_occasion restarts container_name now,
      [.successMail container_name], none)
  else
    (restarts, [], some .dockermonError)

/-- `RestartService.do_restart` (restartservice.py 222–231) = the request
side of `DockerMon.restart_callback` (dockermon.py 333–343): reads `id`,
`Actor.Attributes.name` and `Actor.Attributes."com.docker.compose.service"`
from the raw event — the last lookup raises `KeyError` when the key is
absent, before any request is sent — then issues the restart request and
handles the response. -/
def do_restart (restarts : Restarts) (parsed_json : RawEvent) (now : ℤ)
    (engine_status : Nat) : Restarts × List Action × Option PyErr :=
  match parsed_json.compose_service with
  | none => (restarts, [], some .keyError)
  | some _ =>
    let res := handle_restart_request restarts parsed_json.name now engine_status
    (res.1, .restartRequest parsed_json.id :: res.2.1, res.2.2)

/-- The mutable state of a `RestartService` (restartservice.py 56–64). -/
structure ServiceState where
  captured_events : CapturedEvents
  cache : NameCache
  restarts : Restarts
deriving Repr, DecidableEq

/-- The state a freshly constructed service starts with. -/
def initState : ServiceState := ⟨[], ⟨[], []⟩, []⟩

/-- `RestartService.handle_docker_event` (restartservice.py 79–103; the
same decision structure is inlined in `DockerMon.watch`, dockermon.py
218–245).  `engine_status` is the HTTP status the engine would answer to a
restart request issued while processing this event.  The result carries
the new state, the externally visible actions in order, and the exception
the call raises, if any (state changes made before the raise persist). -/
def handle_docker_event (params : RestartParameters) (s : ServiceState)
    (parsed_json : RawEvent) (now : ℤ) (engine_status : Nat) :
    ServiceState × List Action × Option PyErr :=
  match parsed_json.status with
  | none => (s, [], none)
  | some event_status =>
    let container_name := parsed_json.name
    if event_status ∈ event_types_to_watch then
      let docker_event : DockerEvent := ⟨event_status, container_name, parsed_json.time⟩
      let s1 : ServiceState :=
        { s with captured_events := save_docker_event s.captured_events docker_event }
      if event_status = "start" then
        match RestartService.maintain_container_restarts s1.restarts container_name
            now params.reset_period with
        | .ok r' => ({ s1 with restarts := r' }, [], none)
        | .error e => (s1, [], some e)
      else
        let checked := check_container_is_restartable params s1.cache container_name
        let s2 : ServiceState := { s1 with cache := checked.2 }
        if checked.1 then
          let evs := (s2.captured_events.lookup container_name).getD []
          let needed := check_restart_needed params evs s2.restarts container_name now
          let s3 : ServiceState := { s2 with restarts := needed.2.1 }
          if needed.1 then
            let res := do_restart s3.restarts parsed_json now engine_status
            ({ s3 with restarts := res.1 }, needed.2.2 ++ res.2.1, res.2.2)
          else
            (s3, needed.2.2, none)
        else
          (s2, [], none)
    else if strContains "health_status: unhealthy" event_status then
      let docker_event : DockerEvent := ⟨event_status, container_name, parsed_json.time⟩
      let s1 : ServiceState :=
        { s with captured_events := save_docker_event s.captured_events docker_event }
      let checked := check_container_is_restartable params s1.cache container_name
      let s2 : ServiceState := { s1 with cache := checked.2 }
      if checked.1 then
        let evs := (s2.captured_events.lookup container_name).getD []
        let needed := check_restart_needed params evs s2.restarts container_name now
        let s3 : ServiceState := { s2 with restarts := needed.2.1 }
        if needed.1 then
          match RestartService.maintain_container_restarts s3.restarts container_name
              now params.reset_period with
          | .error e => (s3, needed.2.2, some e)
          | .ok rm =>
            let res := do_restart rm parsed_json now engine_status
            ({ s3 with restarts := res.1 }, needed.2.2 ++ res.2.1, res.2.2)
        else
          (s3, needed.2.2, none)
      else
        (s2, [], none)
    else
      (s, [], none)

/-- The event-processing loop of the service: one raw event at a time,
each with the wall-clock instant of its processing and the status the
engine would answer a restart request with; an uncaught Python exception
aborts the loop. -/
def process_events (params : RestartParameters) :
    ServiceState → List (RawEvent × ℤ × Nat) → ServiceState
  | s, [] => s
  | s, (ev, now, st) :: rest =>
    match handle_docker_event params s ev now st with
    | (s', _, some _) => s'
    | (s', _, none) => process_events params s' rest

/-- `DockerEvent.from_dict` (dockerevent.py 23–44), restricted to the
fields the model carries: a truthy `status` makes a container event whose
`service_name` is the compose service attribute when that is truthy and
otherwise the swarm service attribute (whose absence raises `KeyError`);
a missing/empty `status` yields the all-`None` non-container event. -/
structure ClassifiedEvent where
  event_type : Option String
  container_id : Option String
  container_name : Option String
  service_name : Option String
  time : ℤ
deriving Repr, DecidableEq

/-- Python truthiness of `d.get(key)` for a string-valued key: false when
the key is absent or its value is the empty string. -/
def truthyStr : Option String → Bool
  | none => false
  | some s => ¬ s.isEmpty

/-- `DockerEvent.from_dict` (dockerevent.py 23–44). -/
def from_dict (data : RawEvent) : Except PyErr ClassifiedEvent :=
  if truthyStr data.status then
    if truthyStr data.compose_service then
      .ok ⟨data.status, some data.id, some data.name, data.compose_service, data.time⟩
    else
      match data.swarm_service with
      | some sw => .ok ⟨data.status, some data.id, some data.name, some sw, data.time⟩
      | none => .error .keyError
  else
    .ok ⟨none, none, none, none, data.time⟩

section AssocLemmas

theorem lookup_assocUpd_self {α : Type} (m : List (String × α)) (k : String)
    (v : α) : (assocUpd m k v).lookup k = some v := by
  induction m with
  | nil => simp [assocUpd, List.lookup]
  | cons hd tl ih =>
    obtain ⟨k', v'⟩ := hd
    by_cases h : k' = k
    · simp [assocUpd, h, List.lookup]
    · simp only [assocUpd, if_neg h, List.lookup]
      have : (k == k') = false := by
        simp [Ne.symm h]
      simp [this, ih]

theorem lookup_assocUpd_ne {α : Type} (m : List (String × α)) (k : String)
    (v : α) (k' : String) (h : k' ≠ k) :
    (assocUpd m k v).lookup k' = m.lookup k' := by
  induction m with
  | nil =>
    have hb : (k' == k) = false := by simp [h]
    simp [assocUpd, List.lookup, hb]
  | cons hd tl ih =>
    obtain ⟨k'', v''⟩ := hd
    by_cases h2 : k'' = k
    · have hb1 : (k' == k) = false := by simp [h]
      have hb2 : (k' == k'') = false := by simp [h2, h]
      simp [assocUpd, if_pos h2, List.lookup, hb1, hb2]
    · by_cases h3 : k' = k''
      · simp [assocUpd, if_neg h2, List.lookup, h3]
      · have hb : (k' == k'') = false := by simp [h3]
        simp [assocUpd, if_neg h2, List.lookup, hb, ih]

end AssocLemmas

section RestartRequestFacts

/-- The occasion list recorded for a container: `[]` both for an absent
record and for a fresh one, matching `get_performed_restart_count`. -/
def occList (restarts : Restarts) (c : String) : List ℤ :=
  ((restarts.lookup c).map RestartData.occasions).getD []

theorem occList_save_restart_occasion_self (restarts : Restarts)
    (c : String) (now : ℤ) :
    occList (save_restart_occasion restarts c now) c = occList restarts c ++ [now] := by
  unfold save_restart_occasion occList
  cases h : restarts.lookup c with
  | none => simp [h, lookup_assocUpd_self, RestartData.withFirst]
  | some r => simp [h, lookup_assocUpd_self, RestartData.add_restart_occasion]

theorem occList_save_restart_occasion_ne (restarts : Restarts)
    (c c' : String) (now : ℤ) (h : c' ≠ c) :
    occList (save_restart_occasion restarts c now) c' = occList restarts c' := by
  unfold save_restart_occasion occList
  cases hl : restarts.lookup c with
  | none => rw [lookup_assocUpd_ne _ _ _ _ h]
  | some r => rw [lookup_assocUpd_ne _ _ _ _ h]

/-- C6: a restart request succeeds exactly on status `204 No Content`; then
the current time is appended to that container's occasions, every other
container's record is untouched and exactly one success mail is sent; on
any other status a `DockermonError` is raised, the restart dictionary is
completely unchanged and no mail is sent. -/
theorem c6_handle_restart_request_spec (restarts : Restarts)
    (c : String) (now : ℤ) (status : Nat) :
    (status = 204 ↔ (handle_restart_request restarts c now status).2.2 = none) ∧
    (status = 204 →
      occList (handle_restart_request restarts c now status).1 c =
          occList restarts c ++ [now] ∧
      (∀ c', c' ≠ c →
        ((handle_restart_request restarts c now status).1).lookup c' =
          restarts.lookup c') ∧
      (handle_restart_request restarts c now status).2.1 = [.successMail c]) ∧
    (status ≠ 204 →
      (handle_restart_request restarts c now status).2.2 = some .dockermonError ∧
      (handle_restart_request restarts c now status).1 = restarts ∧
      (handle_restart_request restarts c now status).2.1 = []) := by
  by_cases h : status = 204
  · subst h
    refine ⟨by simp [handle_restart_request], ?_, by simp⟩
    intro _
    refine ⟨occList_save_restart_occasion_self restarts c now, ?_, by
      simp [handle_restart_request]⟩
    intro c' hc'
    simp only [handle_restart_request, if_pos rfl]
    unfold save_restart_occasion
    cases hl : restarts.lookup c with
    | none => exact lookup_assocUpd_ne _ _ _ _ hc'
    | some r => exact lookup_assocUpd_ne _ _ _ _ hc'
  · exact ⟨by simp [handle_restart_request, h],
      fun hh => absurd hh h,
      fun _ => by simp [handle_restart_request, h]⟩

/-- Witness for `c6_handle_restart_request_spec` on a concrete success and
checking the 204 branch concretely. -/
theorem c6_handle_restart_request_witness :
    ((204 : Nat) = 204 ↔ (handle_restart_request [] "c" 7 204).2.2 = none) ∧
    ((204 : Nat) = 204 →
      occList (handle_restart_request [] "c" 7 204).1 "c" = occList [] "c" ++ [7] ∧
      (∀ c', c' ≠ "c" →
        ((handle_restart_request [] "c" 7 204).1).lookup c' =
          (([] : Restarts)).lookup c') ∧
      (handle_restart_request [] "c" 7 204).2.1 = [.successMail "c"]) ∧
    ((204 : Nat) ≠ 204 →
      (handle_restart_request [] "c" 7 204).2.2 = some .dockermonError ∧
      (handle_restart_request [] "c" 7 204).1 = [] ∧
      (handle_restart_request [] "c" 7 204).2.1 = []) :=
  c6_handle_restart_request_spec [] "c" 7 204

/-- C10: for every raw event that carries the swarm service attribute but
not the compose one, the classifier accepts the event (using the swarm
name as `service_name`), yet `do_restart`/`restart_callback` raises
`KeyError` reading the compose attribute and no restart request is
issued. -/
theorem c10_swarm_event_restart_keyerror (restarts : Restarts)
    (ev : RawEvent) (now : ℤ) (engine_status : Nat) (sw : String)
    (hcompose : ev.compose_service = none)
    (hswarm : ev.swarm_service = some sw)
    (hstatus : truthyStr ev.status = true) :
    from_dict ev = .ok ⟨ev.status, some ev.id, some ev.name, some sw, ev.time⟩ ∧
    do_restart restarts ev now engine_status = (restarts, [], some .keyError) ∧
    ∀ a ∈ (do_restart restarts ev now engine_status).2.1, ∀ i, a ≠ .restartRequest i := by
  refine ⟨?_, ?_, ?_⟩
  · unfold from_dict
    rw [hstatus]
    simp [hcompose, hswarm, truthyStr]
  · simp [do_restart, hcompose]
  · simp [do_restart, hcompose]

/-- Witness for `c10_swarm_event_restart_keyerror`: a die event carrying
only `com.docker.swarm.service.name`. -/
theorem c10_swarm_event_witness :
    from_dict ⟨some "die", "abc123", "db-1", 50, none, some "db"⟩ =
        .ok ⟨some "die", some "abc123", some "db-1", some "db", 50⟩ ∧
    do_restart [] ⟨some "die", "abc123", "db-1", 50, none, some "db"⟩ 50 204 =
        ([], [], some .keyError) ∧
    ∀ a ∈ (do_restart [] ⟨some "die", "abc123", "db-1", 50, none, some "db"⟩
        50 204).2.1, ∀ i, a ≠ .restartRequest i :=
  c10_swarm_event_restart_keyerror [] _ 50 204 "db" rfl rfl (by decide)

end RestartRequestFacts

namespace EventBroadcaster

/-- `EventBroadcaster.events_to_watch` (eventbroadcaster.py 25). -/
def events_to_watch : List String :=
  ["die", "stop", "kill", "start", "health_status: healthy",
    "health_status: unhealthy"]

/-- `EventBroadcaster.get_die_events_from_last_period` (eventbroadcaster.py
128–133); the helper statics `event_type_matches` and
`event_max_age_in_seconds` are verbatim copies of DockerMon's and are
shared here. -/
def get_die_events_from_last_period (docker_events : List DockerEvent)
    (now : ℤ) : List DockerEvent :=
  (docker_events.filter (fun e => event_type_matches e "die")).filter
    (fun e => event_max_age_in_seconds e 5 now)

/-- `EventBroadcaster.get_stop_or_kill_events_from_last_period`
(eventbroadcaster.py 135–142). -/
def get_stop_or_kill_events_from_last_period (docker_events : List DockerEvent)
    (now : ℤ) : List DockerEvent :=
  (docker_events.filter (fun e => event_type_matches_one_of e ["stop", "kill"])).filter
    (fun e => event_max_age_in_seconds e 12 now)

/-- `EventBroadcaster.check_notify_required` (eventbroadcaster.py 108–126)
as a function of the container's saved event list. -/
def check_notify_required (docker_events : List DockerEvent) (now : ℤ) : Bool :=
  if docker_events.isEmpty then false
  else if (get_die_events_from_last_period docker_events now).isEmpty then false
  else if ¬ (get_stop_or_kill_events_from_last_period docker_events now).isEmpty then
    false
  else true

/-- The semantic notifications the broadcaster can deliver to its
listeners (`notify_container_*`, eventbroadcaster.py 64–87;
`notify_container_stopped_by_hand` exists but is never invoked by
`broadcast_event`). -/
inductive Notification where
  | containerStarted (container_name : String) : Notification
  | becameHealthy (container_name : String) : Notification
  | becameUnhealthy (container_name : String) : Notification
  | containerDead (container_name : String) : Notification
deriving Repr, DecidableEq

/-- `EventBroadcaster.broadcast_event` (eventbroadcaster.py 89–106):
save the event, then deliver at most one semantic notification. -/
def broadcast_event (captured : CapturedEvents) (event_details : RawEvent)
    (now : ℤ) : CapturedEvents × List Notification :=
  match event_details.status with
  | none => (captured, [])
  | some event_status =>
    let container_name := event_details.name
    if event_status ∈ events_to_watch then
      let docker_event : DockerEvent :=
        ⟨event_status, container_name, event_details.time⟩
      let captured' := save_docker_event captured docker_event
      let evs := (captured'.lookup container_name).getD []
      if event_status = "start" then
        (captured', [.containerStarted container_name])
      else if event_status = "health_status: healthy" then
        (captured', [.becameHealthy container_name])
      else if event_status = "health_status: unhealthy" then
        if check_notify_required evs now then
          (captured', [.becameUnhealthy container_name])
        else (captured', [])
      else
        if check_notify_required evs now then
          (captured', [.containerDead container_name])
        else (captured', [])
    else (captured, [])

end EventBroadcaster

/-- The warrant rule for dead/unhealthy notifications: some die event at
most 5 seconds old is saved, and no stop and no kill event at most 12
seconds old is saved. -/
def NotifyWarrant (docker_events : List DockerEvent) (now : ℤ) : Prop :=
  (∃ e ∈ docker_events, e.type = "die" ∧ now - e.time ≤ 5) ∧
  (∀ e ∈ docker_events, (e.type = "stop" ∨ e.type = "kill") →
    ¬ (now - e.time ≤ 12))

section WarrantLemmas

theorem die_filter_not_empty_iff (devs : List DockerEvent) (now : ℤ) :
    ¬ ((devs.filter (fun e => event_type_matches e "die")).filter
        (fun e => event_max_age_in_seconds e 5 now)).isEmpty = true ↔
      ∃ e ∈ devs, e.type = "die" ∧ now - e.time ≤ 5 := by
  rw [List.isEmpty_iff]
  constructor
  · intro h
    obtain ⟨e, he⟩ := List.exists_mem_of_ne_nil _ h
    rw [List.mem_filter] at he
    obtain ⟨he1, he2⟩ := he
    rw [List.mem_filter] at he1
    refine ⟨e, he1.1, ?_, ?_⟩
    · simpa [event_type_matches] using he1.2
    · simpa [event_max_age_in_seconds] using he2
  · rintro ⟨e, he, ht, ha⟩ hnil
    have hmem : e ∈ (devs.filter (fun e => event_type_matches e "die")).filter
        (fun e => event_max_age_in_seconds e 5 now) := by
      rw [List.mem_filter]
      refine ⟨?_, by simpa [event_max_age_in_seconds] using ha⟩
      rw [List.mem_filter]
      exact ⟨he, by simpa [event_type_matches] using ht⟩
    rw [hnil] at hmem
    exact absurd hmem (List.not_mem_nil e)

theorem stop_kill_filter_not_empty_iff (devs : List DockerEvent) (now : ℤ) :
    ¬ ((devs.filter (fun e => event_type_matches_one_of e ["stop", "kill"])).filter
        (fun e => event_max_age_in_seconds e 12 now)).isEmpty = true ↔
      ∃ e ∈ devs, (e.type = "stop" ∨ e.type = "kill") ∧ now - e.time ≤ 12 := by
  rw [List.isEmpty_iff]
  constructor
  · intro h
    obtain ⟨e, he⟩ := List.exists_mem_of_ne_nil _ h
    rw [List.mem_filter] at he
    obtain ⟨he1, he2⟩ := he
    rw [List.mem_filter] at he1
    refine ⟨e, he1.1, ?_, ?_⟩
    · simpa [event_type_matches_one_of] using he1.2
    · simpa [event_max_age_in_seconds] using he2
  · rintro ⟨e, he, ht, ha⟩ hnil
    have hmem : e ∈ (devs.filter
        (fun e => event_type_matches_one_of e ["stop", "kill"])).filter
        (fun e => event_max_age_in_seconds e 12 now) := by
      rw [List.mem_filter]
      refine ⟨?_, by simpa [event_max_age_in_seconds] using ha⟩
      rw [List.mem_filter]
      exact ⟨he, by simpa [event_type_matches_one_of] using ht⟩
    rw [hnil] at hmem
    exact absurd hmem (List.not_mem_nil e)

theorem notifyWarrant_iff_filters (devs : List DockerEvent) (now : ℤ) :
    NotifyWarrant devs now ↔
      (¬ ((devs.filter (fun e => event_type_matches e "die")).filter
          (fun e => event_max_age_in_seconds e 5 now)).isEmpty = true ∧
        ((devs.filter (fun e => event_type_matches_one_of e ["stop", "kill"])).filter
          (fun e => event_max_age_in_seconds e 12 now)).isEmpty = true) := by
  unfold NotifyWarrant
  rw [die_filter_not_empty_iff]
  constructor
  · rintro ⟨h1, h2⟩
    refine ⟨h1, ?_⟩
    by_contra h
    rw [stop_kill_filter_not_empty_iff] at h
    obtain ⟨e, he, ht, ha⟩ := h
    exact h2 e he ht ha
  · rintro ⟨h1, h2⟩
    refine ⟨h1, ?_⟩
    intro e he ht ha
    have : ¬ ((devs.filter (fun e => event_type_matches_one_of e ["stop", "kill"])).filter
        (fun e => event_max_age_in_seconds e 12 now)).isEmpty = true :=
      (stop_kill_filter_not_empty_iff devs now).mpr ⟨e, he, ht, ha⟩
    exact this h2

/-- `check_notify_required` is exactly the warrant rule. -/
theorem check_notify_required_iff (devs : List DockerEvent) (now : ℤ) :
    EventBroadcaster.check_notify_required devs now = true ↔
      NotifyWarrant devs now := by
  unfold EventBroadcaster.check_notify_required
    EventBroadcaster.get_die_events_from_last_period
    EventBroadcaster.get_stop_or_kill_events_from_last_period
  rw [notifyWarrant_iff_filters]
  split
  · next h =>
    rw [List.isEmpty_iff] at h
    subst h
    simp
  · next h1 =>
    split
    · next h2 =>
      simp only [Bool.false_eq_true, false_iff, not_and]
      intro hcon
      exact absurd h2 hcon
    · next h2 =>
      split
      · next h3 =>
        simp only [Bool.false_eq_true, false_iff, not_and]
        intro _
        intro hcon
        exact h3 hcon
      · next h3 =>
        simp only [true_iff]
        exact ⟨h2, Decidable.not_not.mp h3⟩

end WarrantLemmas

section CheckRestartLemmas

theorem lookup_ensure_record_self (m : Restarts) (c : String) :
    (ensure_record m c).lookup c = some ((m.lookup c).getD (RestartData.fresh c)) := by
  unfold ensure_record
  cases h : m.lookup c with
  | none => simp [lookup_assocUpd_self, h]
  | some r => simp [h]

theorem lookup_ensure_record_ne (m : Restarts) (c c' : String) (h : c' ≠ c) :
    (ensure_record m c).lookup c' = m.lookup c' := by
  unfold ensure_record
  cases hl : m.lookup c with
  | none => exact lookup_assocUpd_ne _ _ _ _ h
  | some r => rfl

theorem ensure_record_eq_of_present (m : Restarts) (c : String) (r : RestartData)
    (h : m.lookup c = some r) : ensure_record m c = m := by
  unfold ensure_record
  rw [h]

theorem occList_getD_fresh (m : Restarts) (c : String) :
    ((m.lookup c).getD (RestartData.fresh c)).occasions = occList m c := by
  unfold occList
  cases h : m.lookup c with
  | none => simp [RestartData.fresh]
  | some r => simp

theorem occList_ensure_record (m : Restarts) (c c' : String) :
    occList (ensure_record m c) c' = occList m c' := by
  by_cases h : c' = c
  · subst h
    unfold occList
    rw [lookup_ensure_record_self]
    cases hl : m.lookup c' with
    | none => simp [RestartData.fresh]
    | some r => simp
  · unfold occList
    rw [lookup_ensure_record_ne _ _ _ h]

/-- The result flag of `check_restart_needed` is exactly: the warrant rule
holds over the saved events and the rate limit admits a restart. -/
theorem check_restart_needed_fst_iff (params : RestartParameters)
    (devs : List DockerEvent) (restarts : Restarts) (c : String) (now : ℤ) :
    (check_restart_needed params devs restarts c now).1 = true ↔
      (NotifyWarrant devs now ∧
        is_restart_allowed (occList restarts c) params.limit params.threshold now
          = true) := by
  simp only [check_restart_needed]
  split
  · next h =>
    rw [List.isEmpty_iff] at h
    subst h
    simp [NotifyWarrant]
  · next h1 =>
    split
    · next h2 =>
      simp only [Bool.false_eq_true, false_iff, not_and]
      intro hw
      rw [notifyWarrant_iff_filters] at hw
      exact absurd h2 hw.1
    · next h2 =>
      split
      · next h3 =>
        simp only [Bool.false_eq_true, false_iff, not_and]
        intro hw
        rw [notifyWarrant_iff_filters] at hw
        exact absurd hw.2 h3
      · next h3 =>
        have hw : NotifyWarrant devs now := by
          rw [notifyWarrant_iff_filters]
          exact ⟨h2, Decidable.not_not.mp h3⟩
        rw [lookup_ensure_record_self]
        simp only
        rw [occList_getD_fresh]
        split
        · next ha => simp [hw, ha]
        · next ha =>
          split
          · next hm =>
            simp only [Bool.false_eq_true, false_iff, not_and]
            intro _
            exact ha
          · simp only [Bool.false_eq_true, false_iff, not_and]
            intro _
            exact ha

/-- `check_restart_needed` never changes any container's occasion list. -/
theorem check_restart_needed_occList (params : RestartParameters)
    (devs : List DockerEvent) (restarts : Restarts) (c : String) (now : ℤ)
    (c' : String) :
    occList (check_restart_needed params devs restarts c now).2.1 c' =
      occList restarts c' := by
  simp only [check_restart_needed]
  split
  · rfl
  · split
    · rfl
    · split
      · rfl
      · rw [lookup_ensure_record_self]
        simp only
        split
        · next ha => exact occList_ensure_record restarts c c'
        · split
          · exact occList_ensure_record restarts c c'
          · by_cases h : c' = c
            · subst h
              unfold occList
              rw [lookup_assocUpd_self]
              cases hl : List.lookup c' restarts with
              | none => simp [hl, RestartData.fresh]
              | some r => simp [hl]
            · unfold occList
              rw [lookup_assocUpd_ne _ _ _ _ h, lookup_ensure_record_ne _ _ _ h]

/-- `check_restart_needed` produces at most the limit-reached mail, never a
restart request or success mail. -/
theorem check_restart_needed_acts (params : RestartParameters)
    (devs : List DockerEvent) (restarts : Restarts) (c : String) (now : ℤ) :
    (check_restart_needed params devs restarts c now).2.2 = [] ∨
      (check_restart_needed params devs restarts c now).2.2 =
        [.limitReachedMail c] := by
  simp only [check_restart_needed]
  split
  · exact Or.inl rfl
  · split
    · exact Or.inl rfl
    · split
      · exact Or.inl rfl
      · rw [lookup_ensure_record_self]
        simp only
        split
        · exact Or.inl rfl
        · split
          · exact Or.inl rfl
          · exact Or.inr rfl

/-- When the container's record exists, `check_restart_needed` either
leaves it untouched and mails nothing, or — exactly when the limit branch
is reached with the latch clear — flips `mail_sent` to true and emits the
limit-reached mail with a false result. -/
theorem check_restart_needed_mail_spec (params : RestartParameters)
    (devs : List DockerEvent) (restarts : Restarts) (c : String) (now : ℤ)
    (r : RestartData) (h : restarts.lookup c = some r) :
    ((check_restart_needed params devs restarts c now).2.1.lookup c = some r ∧
      (check_restart_needed params devs restarts c now).2.2 = []) ∨
    (r.mail_sent = false ∧
      (check_restart_needed params devs restarts c now).1 = false ∧
      (check_restart_needed params devs restarts c now).2.1.lookup c =
        some { r with mail_sent := true } ∧
      (check_restart_needed params devs restarts c now).2.2 =
        [.limitReachedMail c]) := by
  have hens := ensure_record_eq_of_present restarts c r h
  simp only [check_restart_needed]
  split
  · exact Or.inl ⟨h, rfl⟩
  · split
    · exact Or.inl ⟨h, rfl⟩
    · split
      · exact Or.inl ⟨h, rfl⟩
      · rw [hens, h]
        simp only
        split
        · exact Or.inl ⟨h, rfl⟩
        · split
          · next hm => exact Or.inl ⟨h, rfl⟩
          · next hm =>
            refine Or.inr ⟨Bool.eq_false_iff.mpr hm, rfl, ?_, rfl⟩
            rw [hens] at *
            exact lookup_assocUpd_self _ _ _

/-- `check_restart_needed` leaves every other container's record alone. -/
theorem check_restart_needed_lookup_ne (params : RestartParameters)
    (devs : List DockerEvent) (restarts : Restarts) (c : String) (now : ℤ)
    (c' : String) (h : c' ≠ c) :
    (check_restart_needed params devs restarts c now).2.1.lookup c' =
      restarts.lookup c' := by
  simp only [check_restart_needed]
  split
  · rfl
  · split
    · rfl
    · split
      · rfl
      · rw [lookup_ensure_record_self]
        simp only
        split
        · exact lookup_ensure_record_ne _ _ _ h
        · split
          · exact lookup_ensure_record_ne _ _ _ h
          · rw [lookup_assocUpd_ne _ _ _ _ h]
            exact lookup_ensure_record_ne _ _ _ h

end CheckRestartLemmas

section BroadcastFacts

/-- C3: processing a die or `health_status: unhealthy` event through the
broadcaster delivers the dead/unhealthy semantic notification if and only
if the saved history (current event included) holds a die event at most 5
seconds old and no stop/kill event at most 12 seconds old; and the
restart-consideration flag of `check_restart_needed` is true under exactly
the same warrant, conjoined with the rate-limit admission. -/
theorem c3_dead_unhealthy_warrant (captured : CapturedEvents) (ev : RawEvent)
    (now : ℤ) (st : String)
    (hst : ev.status = some st)
    (hdu : st = "die" ∨ st = "health_status: unhealthy") :
    ((EventBroadcaster.Notification.containerDead ev.name ∈ (EventBroadcaster.broadcast_event captured ev now).2 ∨
      EventBroadcaster.Notification.becameUnhealthy ev.name ∈ (EventBroadcaster.broadcast_event captured ev now).2) ↔
      NotifyWarrant
        (((EventBroadcaster.broadcast_event captured ev now).1.lookup ev.name).getD [])
        now) ∧
    (∀ (params : RestartParameters) (restarts : Restarts) (devs : List DockerEvent),
      (check_restart_needed params devs restarts ev.name now).1 = true ↔
        (NotifyWarrant devs now ∧
          is_restart_allowed (occList restarts ev.name) params.limit
            params.threshold now = true)) := by
  refine ⟨?_, fun params restarts devs =>
    check_restart_needed_fst_iff params devs restarts ev.name now⟩
  unfold EventBroadcaster.broadcast_event
  rw [hst]
  simp only
  rcases hdu with hdie | hunh
  · subst hdie
    rw [if_pos (by decide : ("die" : String) ∈ EventBroadcaster.events_to_watch)]
    rw [if_neg (by decide : ¬ ("die" : String) = "start")]
    rw [if_neg (by decide : ¬ ("die" : String) = "health_status: healthy")]
    rw [if_neg (by decide : ¬ ("die" : String) = "health_status: unhealthy")]
    rw [← check_notify_required_iff]
    split
    · next h => simp [h]
    · next h => simp [Bool.eq_false_iff.mpr h]
  · subst hunh
    rw [if_pos (by decide :
        ("health_status: unhealthy" : String) ∈ EventBroadcaster.events_to_watch)]
    rw [if_neg (by decide : ¬ ("health_status: unhealthy" : String) = "start")]
    rw [if_neg (by decide :
        ¬ ("health_status: unhealthy" : String) = "health_status: healthy")]
    rw [if_pos (rfl : ("health_status: unhealthy" : String) = "health_status: unhealthy")]
    rw [← check_notify_required_iff]
    split
    · next h => simp [h]
    · next h => simp [Bool.eq_false_iff.mpr h]

/-- Witness for `c3_dead_unhealthy_warrant`: a die event with an empty
prior history — the current die is 0 seconds old, no stop/kill exists, so
the notification fires. -/
theorem c3_dead_unhealthy_witness :
    ((EventBroadcaster.Notification.containerDead "c" ∈ (EventBroadcaster.broadcast_event []
        ⟨some "die", "i", "c", 100, none, none⟩ 100).2 ∨
      EventBroadcaster.Notification.becameUnhealthy "c" ∈ (EventBroadcaster.broadcast_event []
        ⟨some "die", "i", "c", 100, none, none⟩ 100).2) ↔
      NotifyWarrant
        (((EventBroadcaster.broadcast_event []
            ⟨some "die", "i", "c", 100, none, none⟩ 100).1.lookup "c").getD [])
        100) ∧
    (∀ (params : RestartParameters) (restarts : Restarts) (devs : List DockerEvent),
      (check_restart_needed params devs restarts "c" 100).1 = true ↔
        (NotifyWarrant devs 100 ∧
          is_restart_allowed (occList restarts "c") params.limit
            params.threshold 100 = true)) :=
  c3_dead_unhealthy_warrant [] ⟨some "die", "i", "c", 100, none, none⟩ 100 "die"
    rfl (Or.inl rfl)

end BroadcastFacts

section StepLemmas

/-- `RestartService.maintain_container_restarts` either leaves the
dictionary unchanged or replaces the container's record by a fresh one. -/
theorem maintain_ok_cases (restarts : Restarts) (c : String) (now rp : ℤ)
    (r' : Restarts)
    (h : RestartService.maintain_container_restarts restarts c now rp = .ok r') :
    r' = restarts ∨ r' = assocUpd restarts c (RestartData.fresh c) := by
  simp only [RestartService.maintain_container_restarts] at h
  split at h
  · injection h with h
    exact Or.inl h.symm
  · split at h
    · exact absurd h (by simp)
    · split at h
      · injection h with h
        exact Or.inr h.symm
      · injection h with h
        exact Or.inl h.symm

theorem maintain_occList_le (restarts : Restarts) (c : String) (now rp : ℤ)
    (r' : Restarts)
    (h : RestartService.maintain_container_restarts restarts c now rp = .ok r')
    (c' : String) :
    (occList r' c').length ≤ (occList restarts c').length := by
  rcases maintain_ok_cases restarts c now rp r' h with h1 | h1 <;> subst h1
  · exact le_refl _
  · by_cases hc : c' = c
    · subst hc
      unfold occList
      rw [lookup_assocUpd_self]
      simp [RestartData.fresh]
    · unfold occList
      rw [lookup_assocUpd_ne _ _ _ _ hc]

theorem maintain_lookup_cases (restarts : Restarts) (c : String) (now rp : ℤ)
    (r' : Restarts)
    (h : RestartService.maintain_container_restarts restarts c now rp = .ok r')
    (c' : String) (rec' : RestartData) (h2 : r'.lookup c' = some rec') :
    restarts.lookup c' = some rec' ∨ (c' = c ∧ rec' = RestartData.fresh c) := by
  rcases maintain_ok_cases restarts c now rp r' h with h1 | h1 <;> subst h1
  · exact Or.inl h2
  · by_cases hc : c' = c
    · subst hc
      rw [lookup_assocUpd_self] at h2
      injection h2 with h2
      exact Or.inr ⟨rfl, h2.symm⟩
    · rw [lookup_assocUpd_ne _ _ _ _ hc] at h2
      exact Or.inl h2

theorem lookup_save_restart_occasion_self (m : Restarts) (c : String) (now : ℤ) :
    (save_restart_occasion m c now).lookup c =
      some (((m.lookup c).getD (RestartData.fresh c)).add_restart_occasion now) := by
  unfold save_restart_occasion
  cases h : m.lookup c with
  | none =>
    rw [lookup_assocUpd_self]
    simp [RestartData.withFirst, RestartData.fresh, RestartData.add_restart_occasion]
  | some r =>
    rw [lookup_assocUpd_self]
    simp

theorem lookup_save_restart_occasion_ne (m : Restarts) (c : String) (now : ℤ)
    (c' : String) (h : c' ≠ c) :
    (save_restart_occasion m c now).lookup c' = m.lookup c' := by
  unfold save_restart_occasion
  cases hl : m.lookup c with
  | none => exact lookup_assocUpd_ne _ _ _ _ h
  | some r => exact lookup_assocUpd_ne _ _ _ _ h

/-- `do_restart` either leaves the restart dictionary unchanged (KeyError
or protocol failure) or records exactly the new occasion. -/
theorem do_restart_restarts_cases (restarts : Restarts) (ev : RawEvent)
    (now : ℤ) (engine_status : Nat) :
    (do_restart restarts ev now engine_status).1 = restarts ∨
    (do_restart restarts ev now engine_status).1 =
      save_restart_occasion restarts ev.name now := by
  simp only [do_restart, handle_restart_request]
  split
  · exact Or.inl rfl
  · split
    · exact Or.inr rfl
    · exact Or.inl rfl

/-- The actions of `do_restart` are only the request itself and the
success mail. -/
theorem do_restart_acts (restarts : Restarts) (ev : RawEvent) (now : ℤ)
    (engine_status : Nat) :
    ∀ a ∈ (do_restart restarts ev now engine_status).2.1,
      a = .restartRequest ev.id ∨ a = .successMail ev.name := by
  simp only [do_restart, handle_restart_request]
  split
  · simp
  · split
    · intro a ha
      simp only [List.mem_cons, List.mem_singleton] at ha
      rcases ha with ha | ha | ha
      · exact Or.inl ha
      · exact Or.inr ha
      · cases ha
    · intro a ha
      simp only [List.mem_cons, List.not_mem_nil] at ha
      rcases ha with ha | ha
      · exact Or.inl ha
      · cases ha

end StepLemmas

section InvariantLemmas

theorem do_restart_occBound (restarts : Restarts) (ev : RawEvent) (now : ℤ)
    (engine_status : Nat) (limit : Nat)
    (hother : ∀ c, (occList restarts c).length ≤ limit)
    (hself : (occList restarts ev.name).length < limit) (c : String) :
    (occList (do_restart restarts ev now engine_status).1 c).length ≤ limit := by
  rcases do_restart_restarts_cases restarts ev now engine_status with hd | hd <;>
    rw [hd]
  · exact hother c
  · by_cases hc : c = ev.name
    · subst hc
      rw [occList_save_restart_occasion_self]
      simp only [List.length_append, List.length_singleton]
      omega
    · rw [occList_save_restart_occasion_ne _ _ _ _ hc]
      exact hother c

theorem maintain_do_restart_occBound (restarts : Restarts) (ev : RawEvent)
    (now rp : ℤ) (engine_status : Nat) (limit : Nat) (rm : Restarts)
    (hm : RestartService.maintain_container_restarts restarts ev.name now rp = .ok rm)
    (hother : ∀ c, (occList restarts c).length ≤ limit)
    (hself : (occList restarts ev.name).length < limit) (c : String) :
    (occList (do_restart rm ev now engine_status).1 c).length ≤ limit := by
  have h1 : ∀ c', (occList rm c').length ≤ limit := fun c' =>
    le_trans (maintain_occList_le _ _ _ _ _ hm c') (hother c')
  have h2 : (occList rm ev.name).length < limit := by
    rcases maintain_ok_cases _ _ _ _ _ hm with hcase | hcase <;> subst hcase
    · exact hself
    · unfold occList
      rw [lookup_assocUpd_self]
      simp only [Option.map_some', Option.getD_some]
      have : limit > 0 := lt_of_le_of_lt (Nat.zero_le _) hself
      simpa [RestartData.fresh] using this
  exact do_restart_occBound rm ev now engine_status limit h1 h2 c

/-- Processing one event never pushes any container's occasion count past
the configured limit. -/
theorem handle_docker_event_occBound (params : RestartParameters)
    (s : ServiceState) (ev : RawEvent) (now : ℤ) (engine_status : Nat)
    (h : ∀ c, (occList s.restarts c).length ≤ params.limit) (c : String) :
    (occList (handle_docker_event params s ev now engine_status).1.restarts c).length
      ≤ params.limit := by
  simp only [handle_docker_event]
  split
  · exact h c
  · next event_status =>
    split
    · -- a watched status: die / stop / kill / start
      split
      · -- "start": counter maintenance
        split
        · next r' hm =>
          exact le_trans (maintain_occList_le _ _ _ _ _ hm c) (h c)
        · exact h c
      · -- die / stop / kill
        split
        · -- name matches a restart pattern
          split
          · next hneed =>
            have hia := ((check_restart_needed_fst_iff _ _ _ _ _).mp hneed).2
            have hlt := ((is_restart_allowed_spec _ _ _ _).mp hia).1
            exact do_restart_occBound _ ev now engine_status params.limit
              (fun c' => by rw [check_restart_needed_occList]; exact h c')
              (by rw [check_restart_needed_occList]; exact hlt) c
          · dsimp only
            rw [check_restart_needed_occList]
            exact h c
        · exact h c
    · split
      · -- health_status: unhealthy
        split
        · -- name matches a restart pattern
          split
          · next hneed =>
            have hia := ((check_restart_needed_fst_iff _ _ _ _ _).mp hneed).2
            have hlt := ((is_restart_allowed_spec _ _ _ _).mp hia).1
            split
            · -- maintain raised IndexError
              dsimp only
              rw [check_restart_needed_occList]
              exact h c
            · next rm hm =>
              exact maintain_do_restart_occBound _ ev now params.reset_period
                engine_status params.limit rm hm
                (fun c' => by rw [check_restart_needed_occList]; exact h c')
                (by rw [check_restart_needed_occList]; exact hlt) c
          · dsimp only
            rw [check_restart_needed_occList]
            exact h c
        · exact h c
      · exact h c

/-- Along any run of the service from its initial state, every container's
occasion count stays within the configured limit. -/
theorem process_events_occBound (params : RestartParameters)
    (inputs : List (RawEvent × ℤ × Nat)) :
    ∀ s : ServiceState, (∀ c, (occList s.restarts c).length ≤ params.limit) →
      ∀ c, (occList (process_events params s inputs).restarts c).length ≤
        params.limit := by
  induction inputs with
  | nil => exact fun s h => h
  | cons head tail ih =>
    intro s h
    obtain ⟨ev, now, st⟩ := head
    simp only [process_events]
    have hb := handle_docker_event_occBound params s ev now st h
    split
    · next s' acts e heq =>
      intro c
      have := hb c
      rw [heq] at this
      exact this
    · next s' acts heq =>
      refine ih s' ?_
      intro c
      have := hb c
      rw [heq] at this
      exact this

end InvariantLemmas

section LimitFacts

/-- C1: once a container's restart record already holds `restart_limit`
timestamps, all within the last `restart_threshold` minutes, processing a
further die or `health_status: unhealthy` event for it issues no restart
request and appends nothing to its occasions; and along any run from the
initial state every container's occasion list never exceeds
`restart_limit` entries, so at most `restart_limit` of its timestamps can
fall within the threshold window at any moment. -/
theorem c1_limit_blocks_restart (params : RestartParameters)
    (s : ServiceState) (ev : RawEvent) (now : ℤ) (engine_status : Nat)
    (r : RestartData)
    (hstat : ev.status = some "die" ∨ ev.status = some "health_status: unhealthy")
    (hrec : s.restarts.lookup ev.name = some r)
    (hfull : r.occasions.length = params.limit)
    (hwin : ∀ t ∈ r.occasions, now - params.threshold * 60 ≤ t) :
    (∀ a ∈ (handle_docker_event params s ev now engine_status).2.1,
      ∀ i, a ≠ Action.restartRequest i) ∧
    occList (handle_docker_event params s ev now engine_status).1.restarts ev.name
      = occList s.restarts ev.name ∧
    (∀ (inputs : List (RawEvent × ℤ × Nat)) (c : String),
      (occList (process_events params initState inputs).restarts c).length ≤
        params.limit) := by
  have hocc : occList s.restarts ev.name = r.occasions := by
    unfold occList
    rw [hrec]
    rfl
  have hneed : ∀ devs,
      (check_restart_needed params devs s.restarts ev.name now).1 = false := by
    intro devs
    by_contra hT
    have hT' : (check_restart_needed params devs s.restarts ev.name now).1 = true := by
      revert hT
      cases (check_restart_needed params devs s.restarts ev.name now).1 <;> simp
    have hia := ((check_restart_needed_fst_iff _ _ _ _ _).mp hT').2
    have hlt := ((is_restart_allowed_spec _ _ _ _).mp hia).1
    rw [hocc, hfull] at hlt
    exact lt_irrefl _ hlt
  have hpart3 : ∀ (inputs : List (RawEvent × ℤ × Nat)) (c : String),
      (occList (process_events params initState inputs).restarts c).length ≤
        params.limit := by
    intro inputs c
    refine process_events_occBound params inputs initState ?_ c
    intro c'
    simp [occList, initState, List.lookup]
  have hmain :
      ((handle_docker_event params s ev now engine_status).2.1 = [] ∨
        (handle_docker_event params s ev now engine_status).2.1 =
          [.limitReachedMail ev.name]) ∧
      occList (handle_docker_event params s ev now engine_status).1.restarts
          ev.name = occList s.restarts ev.name := by
    rcases hstat with hst | hst
    · simp only [handle_docker_event]
      rw [hst]
      dsimp only
      rw [if_pos (by decide : ("die" : String) ∈ event_types_to_watch)]
      rw [if_neg (by decide : ¬ ("die" : String) = "start")]
      split
      · rw [if_neg (show ¬ _ = true by rw [hneed]; simp)]
        exact ⟨check_restart_needed_acts _ _ _ _ _,
          check_restart_needed_occList _ _ _ _ _ _⟩
      · exact ⟨Or.inl rfl, rfl⟩
    · simp only [handle_docker_event]
      rw [hst]
      dsimp only
      rw [if_neg (by decide :
          ¬ ("health_status: unhealthy" : String) ∈ event_types_to_watch)]
      rw [if_pos (by decide :
          strContains "health_status: unhealthy" "health_status: unhealthy" = true)]
      split
      · rw [if_neg (show ¬ _ = true by rw [hneed]; simp)]
        exact ⟨check_restart_needed_acts _ _ _ _ _,
          check_restart_needed_occList _ _ _ _ _ _⟩
      · exact ⟨Or.inl rfl, rfl⟩
  refine ⟨?_, hmain.2, hpart3⟩
  intro a ha i
  rcases hmain.1 with hacts | hacts <;> rw [hacts] at ha
  · exact absurd ha (List.not_mem_nil a)
  · rw [List.mem_singleton] at ha
    subst ha
    simp

/-- Witness for `c1_limit_blocks_restart`: limit 1, one in-window occasion
recorded, a fresh die event. -/
theorem c1_limit_blocks_restart_witness :
    (∀ a ∈ (handle_docker_event ⟨1, 10, 2, [fun _ => true]⟩
        ⟨[("c", [⟨"die", "c", 100⟩])], ⟨[], []⟩, [("c", ⟨"c", [95], false⟩)]⟩
        ⟨some "die", "i", "c", 100, some "svc", none⟩ 100 204).2.1,
      ∀ i, a ≠ Action.restartRequest i) ∧
    occList (handle_docker_event ⟨1, 10, 2, [fun _ => true]⟩
        ⟨[("c", [⟨"die", "c", 100⟩])], ⟨[], []⟩, [("c", ⟨"c", [95], false⟩)]⟩
        ⟨some "die", "i", "c", 100, some "svc", none⟩ 100 204).1.restarts "c"
      = occList [("c", ⟨"c", [95], false⟩)] "c" ∧
    (∀ (inputs : List (RawEvent × ℤ × Nat)) (c : String),
      (occList (process_events ⟨1, 10, 2, [fun _ => true]⟩ initState
          inputs).restarts c).length ≤ 1) :=
  c1_limit_blocks_restart ⟨1, 10, 2, [fun _ => true]⟩
    ⟨[("c", [⟨"die", "c", 100⟩])], ⟨[], []⟩, [("c", ⟨"c", [95], false⟩)]⟩
    ⟨some "die", "i", "c", 100, some "svc", none⟩ 100 204
    ⟨"c", [95], false⟩ (Or.inl rfl) (by decide) (by decide) (by decide)

end LimitFacts

section MailLatchFacts

/-- Shape of one die/unhealthy processing step for a container with an
existing record `r`: either no limit-reached mail is emitted and the
record afterwards is `r`, `r` plus the new occasion, or a reset record
(possibly plus the new occasion); or the limit branch latched the mail:
`mail_sent` was false, exactly the limit-reached mail is emitted and the
record afterwards is `r` with `mail_sent := true`. -/
theorem handle_docker_event_mail_shape (params : RestartParameters)
    (s : ServiceState) (ev : RawEvent) (now : ℤ) (engine_status : Nat)
    (r : RestartData)
    (hstat : ev.status = some "die" ∨ ev.status = some "health_status: unhealthy")
    (hrec : s.restarts.lookup ev.name = some r) :
    ((∀ a ∈ (handle_docker_event params s ev now engine_status).2.1,
        a ≠ Action.limitReachedMail ev.name) ∧
      ((handle_docker_event params s ev now engine_status).1.restarts.lookup
          ev.name = some r ∨
        (handle_docker_event params s ev now engine_status).1.restarts.lookup
          ev.name = some (r.add_restart_occasion now) ∨
        (handle_docker_event params s ev now engine_status).1.restarts.lookup
          ev.name = some (RestartData.fresh ev.name) ∨
        (handle_docker_event params s ev now engine_status).1.restarts.lookup
          ev.name = some ((RestartData.fresh ev.name).add_restart_occasion now))) ∨
    (r.mail_sent = false ∧
      (handle_docker_event params s ev now engine_status).2.1 =
        [Action.limitReachedMail ev.name] ∧
      (handle_docker_event params s ev now engine_status).1.restarts.lookup
        ev.name = some { r with mail_sent := true }) := by
  rcases hstat with hst | hst
  · simp only [handle_docker_event]
    rw [hst]
    dsimp only
    rw [if_pos (by decide : ("die" : String) ∈ event_types_to_watch)]
    rw [if_neg (by decide : ¬ ("die" : String) = "start")]
    split
    · split
      · next hn =>
        rcases check_restart_needed_mail_spec params _ s.restarts ev.name now r
            hrec with hA | hB
        · refine Or.inl ⟨?_, ?_⟩
          · intro a ha
            rw [hA.2] at ha
            dsimp only at ha
            rw [List.nil_append] at ha
            rcases do_restart_acts _ ev now engine_status a ha with h1 | h1 <;>
              · rw [h1]; simp
          · dsimp only
            rcases do_restart_restarts_cases _ ev now engine_status with hd | hd <;>
              rw [hd]
            · exact Or.inl hA.1
            · rw [lookup_save_restart_occasion_self, hA.1]
              exact Or.inr (Or.inl rfl)
        · exact absurd hn (by rw [hB.2.1]; simp)
      · rcases check_restart_needed_mail_spec params _ s.restarts ev.name now r
            hrec with hA | hB
        · refine Or.inl ⟨?_, Or.inl hA.1⟩
          intro a ha
          rw [hA.2] at ha
          exact absurd ha (List.not_mem_nil a)
        · exact Or.inr ⟨hB.1, hB.2.2.2, hB.2.2.1⟩
    · exact Or.inl ⟨by simp, Or.inl hrec⟩
  · simp only [handle_docker_event]
    rw [hst]
    dsimp only
    rw [if_neg (by decide :
        ¬ ("health_status: unhealthy" : String) ∈ event_types_to_watch)]
    rw [if_pos (by decide :
        strContains "health_status: unhealthy" "health_status: unhealthy" = true)]
    split
    · split
      · next hn =>
        rcases check_restart_needed_mail_spec params _ s.restarts ev.name now r
            hrec with hA | hB
        · split
          · refine Or.inl ⟨?_, Or.inl hA.1⟩
            intro a ha
            rw [hA.2] at ha
            exact absurd ha (List.not_mem_nil a)
          · next rm hm =>
            refine Or.inl ⟨?_, ?_⟩
            · intro a ha
              rw [hA.2] at ha
              dsimp only at ha
              rw [List.nil_append] at ha
              rcases do_restart_acts _ ev now engine_status a ha with h1 | h1 <;>
                · rw [h1]; simp
            · dsimp only
              rcases do_restart_restarts_cases rm ev now engine_status with hd | hd <;>
                rw [hd]
              · rcases maintain_ok_cases _ _ _ _ _ hm with hc | hc <;> subst hc
                · exact Or.inl hA.1
                · rw [lookup_assocUpd_self]
                  exact Or.inr (Or.inr (Or.inl rfl))
              · rw [lookup_save_restart_occasion_self]
                rcases maintain_ok_cases _ _ _ _ _ hm with hc | hc <;> subst hc
                · rw [hA.1]
                  exact Or.inr (Or.inl rfl)
                · rw [lookup_assocUpd_self]
                  exact Or.inr (Or.inr (Or.inr rfl))
        · exact absurd hn (by rw [hB.2.1]; simp)
      · rcases check_restart_needed_mail_spec params _ s.restarts ev.name now r
            hrec with hA | hB
        · refine Or.inl ⟨?_, Or.inl hA.1⟩
          intro a ha
          rw [hA.2] at ha
          exact absurd ha (List.not_mem_nil a)
        · exact Or.inr ⟨hB.1, hB.2.2.2, hB.2.2.1⟩
    · exact Or.inl ⟨by simp, Or.inl hrec⟩

/-- C5, amended: the limit-reached mail is handed to the notifier exactly
from the exhausted branch of `check_restart_needed` — on die *and* on
`health_status: unhealthy` events alike — and only while `mail_sent` is
false; the flag is then set, so the mail is emitted at most once per
exhaustion, and the flag returns to false only through a full record reset
(whose cleared occasion list may at most gain the occasion of a restart
performed in the same step). -/
theorem c5_mail_latch (params : RestartParameters) (s : ServiceState)
    (ev : RawEvent) (now : ℤ) (engine_status : Nat) (r : RestartData)
    (hstat : ev.status = some "die" ∨ ev.status = some "health_status: unhealthy")
    (hrec : s.restarts.lookup ev.name = some r) :
    (r.mail_sent = true →
      Action.limitReachedMail ev.name ∉
        (handle_docker_event params s ev now engine_status).2.1) ∧
    (Action.limitReachedMail ev.name ∈
        (handle_docker_event params s ev now engine_status).2.1 →
      r.mail_sent = false ∧
      ((handle_docker_event params s ev now engine_status).1.restarts.lookup
          ev.name).map RestartData.mail_sent = some true) ∧
    (∀ r' : RestartData,
      (handle_docker_event params s ev now engine_status).1.restarts.lookup
          ev.name = some r' →
      r.mail_sent = true → r'.mail_sent = false →
      (r'.occasions = [] ∨ r'.occasions = [now])) := by
  rcases handle_docker_event_mail_shape params s ev now engine_status r hstat
      hrec with hS | hS
  · refine ⟨fun _ hmem => hS.1 _ hmem rfl, fun hmem => absurd rfl (hS.1 _ hmem), ?_⟩
    intro r' hr' hmail hr'false
    rcases hS.2 with h4 | h4 | h4 | h4 <;> rw [h4] at hr' <;> injection hr' with hr'
    · rw [← hr'] at hr'false
      rw [hmail] at hr'false
      cases hr'false
    · rw [← hr'] at hr'false
      simp only [RestartData.add_restart_occasion] at hr'false
      rw [hmail] at hr'false
      cases hr'false
    · rw [← hr']
      exact Or.inl rfl
    · rw [← hr']
      exact Or.inr rfl
  · refine ⟨?_, fun _ => ⟨hS.1, by rw [hS.2.2]; rfl⟩, ?_⟩
    · intro hmail
      rw [hS.1] at hmail
      cases hmail
    · intro r' hr' hmail
      rw [hS.1] at hmail
      cases hmail

/-- C5, counterexample to the claim as stated: a `health_status: unhealthy`
event (not a die) whose processing hands the limit-reached mail to the
notifier.  Limit 1, one occasion recorded, a die 2 seconds ago in the
history, no stop/kill, latch clear. -/
theorem c5_unhealthy_limit_mail_counterexample :
    (⟨some "health_status: unhealthy", "id1", "c", 100, some "svc", none⟩ :
        RawEvent).status = some "health_status: unhealthy" ∧
    (handle_docker_event ⟨1, 10, 2, [fun _ => true]⟩
        ⟨[("c", [⟨"die", "c", 98⟩])], ⟨[], []⟩, [("c", ⟨"c", [90], false⟩)]⟩
        ⟨some "health_status: unhealthy", "id1", "c", 100, some "svc", none⟩
        100 204).2.1 = [Action.limitReachedMail "c"] := by
  exact ⟨rfl, by decide⟩

/-- Witness for `c5_mail_latch`: a die event processed while the latch is
already set — no further limit mail. -/
theorem c5_mail_latch_witness :
    ((⟨"c", [90], true⟩ : RestartData).mail_sent = true →
      Action.limitReachedMail "c" ∉
        (handle_docker_event ⟨1, 10, 2, [fun _ => true]⟩
          ⟨[("c", [⟨"die", "c", 98⟩])], ⟨[], []⟩, [("c", ⟨"c", [90], true⟩)]⟩
          ⟨some "die", "id1", "c", 100, some "svc", none⟩ 100 204).2.1) ∧
    (Action.limitReachedMail "c" ∈
        (handle_docker_event ⟨1, 10, 2, [fun _ => true]⟩
          ⟨[("c", [⟨"die", "c", 98⟩])], ⟨[], []⟩, [("c", ⟨"c", [90], true⟩)]⟩
          ⟨some "die", "id1", "c", 100, some "svc", none⟩ 100 204).2.1 →
      (⟨"c", [90], true⟩ : RestartData).mail_sent = false ∧
      ((handle_docker_event ⟨1, 10, 2, [fun _ => true]⟩
          ⟨[("c", [⟨"die", "c", 98⟩])], ⟨[], []⟩, [("c", ⟨"c", [90], true⟩)]⟩
          ⟨some "die", "id1", "c", 100, some "svc", none⟩ 100 204).1.restarts.lookup
          "c").map RestartData.mail_sent = some true) ∧
    (∀ r' : RestartData,
      (handle_docker_event ⟨1, 10, 2, [fun _ => true]⟩
          ⟨[("c", [⟨"die", "c", 98⟩])], ⟨[], []⟩, [("c", ⟨"c", [90], true⟩)]⟩
          ⟨some "die", "id1", "c", 100, some "svc", none⟩ 100 204).1.restarts.lookup
          "c" = some r' →
      (⟨"c", [90], true⟩ : RestartData).mail_sent = true → r'.mail_sent = false →
      (r'.occasions = [] ∨ r'.occasions = [100])) :=
  c5_mail_latch ⟨1, 10, 2, [fun _ => true]⟩
    ⟨[("c", [⟨"die", "c", 98⟩])], ⟨[], []⟩, [("c", ⟨"c", [90], true⟩)]⟩
    ⟨some "die", "id1", "c", 100, some "svc", none⟩ 100 204
    ⟨"c", [90], true⟩ (Or.inl rfl) (by decide)

end MailLatchFacts

section Framer

/-- The per-digit value Python's `int(s, 16)` assigns to a hexadecimal
digit character. -/
def hexVal (c : Char) : Nat :=
  if c.toNat ≤ 57 then c.toNat - 48
  else if c.toNat ≤ 70 then c.toNat - 55
  else c.toNat - 87

/-- `int(s, 16)` on a string of hexadecimal digits (dockermon.py 208). -/
def parseHex (l : List Char) : Nat :=
  l.foldl (fun acc c => 16 * acc + hexVal c) 0

/-- A character `int(·, 16)` accepts as a digit. -/
def HexDigitChar (c : Char) : Prop :=
  ('0' ≤ c ∧ c ≤ '9') ∨ ('a' ≤ c ∧ c ≤ 'f') ∨ ('A' ≤ c ∧ c ≤ 'F')

instance : DecidablePred HexDigitChar := fun c => by
  unfold HexDigitChar
  infer_instance

/-- One HTTP chunked-transfer frame: the hexadecimal size field and the
payload bytes, framed on the wire as `<hex-size>\r\n<payload>\r\n`. -/
structure ChunkedFrame where
  size_field : List Char
  payload : List Char
deriving Repr, DecidableEq

/-- A well-formed frame: a non-empty size field of hex digits whose value
is the payload length, and a non-empty payload (one JSON event; a
zero-length frame terminates the stream instead). -/
def ChunkedFrame.WF (fr : ChunkedFrame) : Prop :=
  fr.size_field ≠ [] ∧ (∀ c ∈ fr.size_field, HexDigitChar c) ∧
    parseHex fr.size_field = fr.payload.length ∧ fr.payload ≠ []

/-- The byte sequence of one frame on the wire. -/
def encodeFrame (fr : ChunkedFrame) : List Char :=
  fr.size_field ++ '\r' :: '\n' :: (fr.payload ++ ['\r', '\n'])

/-- The byte sequence of a sequence of frames. -/
def encodeFrames : List ChunkedFrame → List Char
  | [] => []
  | fr :: rest => encodeFrame fr ++ encodeFrames rest

/-- `data.find('\r\n')` (dockermon.py 204): index of the first `\r\n`. -/
def findCRLF : List Char → Option Nat
  | [] => none
  | [_] => none
  | a :: b :: rest =>
    if a = '\r' ∧ b = '\n' then some 0
    else (findCRLF (b :: rest)).map (· + 1)

/-- One iteration of the framing part of the read loop of `DockerMon.watch`
(dockermon.py 197–245): append the received chunk to the buffer; when the
buffer holds no `\r\n` or an incomplete frame, keep everything and emit
nothing; otherwise emit exactly the `int(data[:i], 16)` payload bytes
following the size line and keep what follows the trailing `\r\n`. -/
def readChunk (buf chunk : List Char) : List (List Char) × List Char :=
  let data := buf ++ chunk
  match findCRLF data with
  | none => ([], data)
  | some i =>
    let size := parseHex (data.take i)
    let start := i + 2
    if data.length < start + size + 2 then ([], data)
    else ([(data.drop start).take size], data.drop (start + size + 2))

/-- The read loop of `DockerMon.watch`: one socket read at a time, each
`recv` processing the buffer once. -/
def watchRead (buf : List Char) : List (List Char) → List (List Char)
  | [] => []
  | chunk :: rest =>
    (readChunk buf chunk).1 ++ watchRead (readChunk buf chunk).2 rest

theorem hex_ne_CR (c : Char) (h : HexDigitChar c) : c ≠ '\r' := by
  intro hc
  subst hc
  rcases h with ⟨h1, -⟩ | ⟨h1, -⟩ | ⟨h1, -⟩ <;> exact absurd h1 (by decide)

theorem findCRLF_bound (l : List Char) :
    ∀ i, findCRLF l = some i → i + 2 ≤ l.length := by
  induction l with
  | nil => intro i h; simp [findCRLF] at h
  | cons a t ih =>
    cases t with
    | nil => intro i h; simp [findCRLF] at h
    | cons b rest =>
      intro i h
      simp only [findCRLF] at h
      split at h
      · injection h with h
        subst h
        simp [List.length_cons]
      · cases hf : findCRLF (b :: rest) with
        | none => rw [hf] at h; simp at h
        | some j =>
          rw [hf] at h
          simp only [Option.map_some'] at h
          injection h with h
          have hj := ih j hf
          simp only [List.length_cons] at hj ⊢
          omega

theorem findCRLF_append_hex (hex rest : List Char)
    (h : ∀ c ∈ hex, c ≠ '\r') :
    findCRLF (hex ++ '\r' :: '\n' :: rest) = some hex.length := by
  induction hex with
  | nil => simp [findCRLF]
  | cons c t ih =>
    have hc : c ≠ '\r' := h c (List.mem_cons_self c t)
    have ht : ∀ x ∈ t, x ≠ '\r' := fun x hx => h x (List.mem_cons_of_mem c hx)
    cases t with
    | nil =>
      simp only [List.nil_append, List.cons_append, findCRLF]
      rw [if_neg (by intro hh; exact hc hh.1)]
      simp [findCRLF]
    | cons b t' =>
      have ih2 : findCRLF (b :: (t' ++ '\r' :: '\n' :: rest)) =
          some (b :: t').length := ih ht
      show (if c = '\r' ∧ b = '\n' then some 0
          else (findCRLF (b :: (t' ++ '\r' :: '\n' :: rest))).map (· + 1)) =
        some ((c :: b :: t').length)
      rw [if_neg (by intro hh; exact hc hh.1)]
      rw [ih2]
      simp [List.length_cons]

theorem findCRLF_prefix_aligned :
    ∀ (hex : List Char), (∀ c ∈ hex, c ≠ '\r') →
    ∀ (data rest : List Char) (i : Nat),
      data <+: hex ++ '\r' :: '\n' :: rest →
      findCRLF data = some i → i = hex.length := by
  intro hex
  induction hex with
  | nil =>
    intro _ data rest i hpre hf
    cases data with
    | nil => simp [findCRLF] at hf
    | cons a d =>
      cases d with
      | nil => simp [findCRLF] at hf
      | cons b d' =>
        rw [List.nil_append, List.cons_prefix_cons] at hpre
        obtain ⟨ha, hpre2⟩ := hpre
        rw [List.cons_prefix_cons] at hpre2
        obtain ⟨hb, -⟩ := hpre2
        simp only [findCRLF] at hf
        rw [if_pos ⟨ha, hb⟩] at hf
        injection hf with hf
        simp [← hf]
  | cons c t ih =>
    intro hhex data rest i hpre hf
    have hc : c ≠ '\r' := hhex c (List.mem_cons_self c t)
    have ht : ∀ x ∈ t, x ≠ '\r' := fun x hx => hhex x (List.mem_cons_of_mem c hx)
    cases data with
    | nil => simp [findCRLF] at hf
    | cons a d =>
      rw [List.cons_append, List.cons_prefix_cons] at hpre
      obtain ⟨ha, hpre2⟩ := hpre
      cases d with
      | nil => simp [findCRLF] at hf
      | cons b d' =>
        simp only [findCRLF] at hf
        rw [if_neg (by intro hh; rw [ha] at hh; exact hc hh.1)] at hf
        cases hfe : findCRLF (b :: d') with
        | none => rw [hfe] at hf; simp at hf
        | some j =>
          rw [hfe] at hf
          simp only [Option.map_some'] at hf
          injection hf with hf
          have hj := ih ht (b :: d') rest j hpre2 hfe
          rw [← hf, hj, List.length_cons]

theorem encodeFrames_cons_assoc (fr : ChunkedFrame) (fs : List ChunkedFrame) :
    encodeFrames (fr :: fs) =
      fr.size_field ++ '\r' :: '\n' ::
        (fr.payload ++ '\r' :: '\n' :: encodeFrames fs) := by
  simp [encodeFrames, encodeFrame]

theorem encodeFrame_length (fr : ChunkedFrame) :
    (encodeFrame fr).length =
      fr.size_field.length + 2 + fr.payload.length + 2 := by
  simp [encodeFrame]
  omega

/-- The delivered payload sequence is always a prefix of the payloads of
the concatenated stream, whatever the partition into socket reads. -/
theorem watchRead_prefix_aux :
    ∀ (chunks : List (List Char)) (buf : List Char)
      (frames : List ChunkedFrame),
      (∀ fr ∈ frames, fr.WF) →
      buf ++ chunks.flatten = encodeFrames frames →
      watchRead buf chunks <+: frames.map ChunkedFrame.payload := by
  intro chunks
  induction chunks with
  | nil =>
    intro buf frames _ _
    exact List.nil_prefix
  | cons chunk rest ih =>
    intro buf frames hwf hs
    rw [List.flatten_cons, ← List.append_assoc] at hs
    simp only [watchRead, readChunk]
    cases hf : findCRLF (buf ++ chunk) with
    | none =>
      dsimp only
      rw [List.nil_append]
      exact ih (buf ++ chunk) frames hwf hs
    | some i =>
      dsimp only
      cases frames with
      | nil =>
        simp only [encodeFrames] at hs
        rw [List.append_eq_nil] at hs
        rw [hs.1] at hf
        simp [findCRLF] at hf
      | cons fr fs =>
        obtain ⟨hne, hdig, hlen, -⟩ := hwf fr (List.mem_cons_self fr fs)
        have hwf2 : ∀ x ∈ fs, x.WF := fun x hx => hwf x (List.mem_cons_of_mem fr hx)
        have hcr : ∀ c ∈ fr.size_field, c ≠ '\r' := fun c hc => hex_ne_CR c (hdig c hc)
        have hpre : buf ++ chunk <+:
            fr.size_field ++ '\r' :: '\n' ::
              (fr.payload ++ '\r' :: '\n' :: encodeFrames fs) :=
          ⟨rest.flatten, by rw [hs, encodeFrames_cons_assoc]⟩
        have hi : i = fr.size_field.length :=
          findCRLF_prefix_aligned fr.size_field hcr (buf ++ chunk) _ i hpre hf
        have hib : i + 2 ≤ (buf ++ chunk).length := findCRLF_bound _ i hf
        have htake : (buf ++ chunk).take i = fr.size_field := by
          calc (buf ++ chunk).take i
              = ((buf ++ chunk) ++ rest.flatten).take i :=
                (List.take_append_of_le_length (by omega)).symm
            _ = (fr.size_field ++ ('\r' :: '\n' ::
                  (fr.payload ++ '\r' :: '\n' :: encodeFrames fs))).take
                  fr.size_field.length := by
                rw [hs, encodeFrames_cons_assoc, hi]
            _ = fr.size_field := List.take_left _ _
        rw [htake, hlen]
        split
        · next hincomp =>
          rw [List.nil_append]
          exact ih (buf ++ chunk) (fr :: fs) hwf hs
        · next hcomp =>
          have hfull : i + 2 + fr.payload.length + 2 ≤ (buf ++ chunk).length := by
            omega
          have hpay : ((buf ++ chunk).drop (i + 2)).take fr.payload.length =
              fr.payload := by
            have h2 : fr.payload.length ≤ ((buf ++ chunk).drop (i + 2)).length := by
              rw [List.length_drop]
              omega
            have hsplit : (buf ++ chunk).drop (i + 2) ++ rest.flatten =
                ((buf ++ chunk) ++ rest.flatten).drop (i + 2) :=
              (List.drop_append_of_le_length (show i + 2 ≤ (buf ++ chunk).length
                by omega)).symm
            calc ((buf ++ chunk).drop (i + 2)).take fr.payload.length
                = (((buf ++ chunk).drop (i + 2)) ++ rest.flatten).take
                    fr.payload.length :=
                  (List.take_append_of_le_length h2).symm
              _ = (((buf ++ chunk) ++ rest.flatten).drop (i + 2)).take
                    fr.payload.length := by
                  rw [hsplit]
              _ = ((fr.size_field ++ '\r' :: '\n' ::
                    (fr.payload ++ '\r' :: '\n' :: encodeFrames fs)).drop
                    (fr.size_field.length + 2)).take fr.payload.length := by
                  rw [hs, encodeFrames_cons_assoc, hi]
              _ = ((fr.payload ++ '\r' :: '\n' :: encodeFrames fs)).take
                    fr.payload.length := by
                  rw [show fr.size_field ++ '\r' :: '\n' ::
                        (fr.payload ++ '\r' :: '\n' :: encodeFrames fs) =
                      (fr.size_field ++ ['\r', '\n']) ++
                        (fr.payload ++ '\r' :: '\n' :: encodeFrames fs) from by simp]
                  rw [show fr.size_field.length + 2 =
                      (fr.size_field ++ ['\r', '\n']).length from by simp]
                  rw [List.drop_left]
              _ = fr.payload := List.take_left _ _
          have hbuf' : (buf ++ chunk).drop (i + 2 + fr.payload.length + 2) ++
              rest.flatten = encodeFrames fs := by
            calc (buf ++ chunk).drop (i + 2 + fr.payload.length + 2) ++ rest.flatten
                = ((buf ++ chunk) ++ rest.flatten).drop
                    (i + 2 + fr.payload.length + 2) :=
                  (List.drop_append_of_le_length hfull).symm
              _ = (encodeFrame fr ++ encodeFrames fs).drop
                    (encodeFrame fr).length := by
                  rw [hs]
                  rw [show encodeFrames (fr :: fs) =
                      encodeFrame fr ++ encodeFrames fs from rfl]
                  rw [encodeFrame_length, hi]
              _ = encodeFrames fs := List.drop_left _ _
          rw [hpay]
          obtain ⟨t, ht⟩ := ih ((buf ++ chunk).drop (i + 2 + fr.payload.length + 2))
            fs hwf2 hbuf'
          exact ⟨t, by rw [List.map_cons, ← ht]; rfl⟩

/-- Delivering one complete frame per socket read yields exactly the
payload sequence. -/
theorem watchRead_exact :
    ∀ (frames : List ChunkedFrame), (∀ fr ∈ frames, fr.WF) →
      watchRead [] (frames.map encodeFrame) = frames.map ChunkedFrame.payload := by
  intro frames
  induction frames with
  | nil => intro _; rfl
  | cons fr fs ih =>
    intro hwf
    obtain ⟨hne, hdig, hlen, -⟩ := hwf fr (List.mem_cons_self fr fs)
    simp only [List.map_cons, watchRead, readChunk, List.nil_append]
    have hf : findCRLF (encodeFrame fr) = some fr.size_field.length := by
      unfold encodeFrame
      exact findCRLF_append_hex _ _ (fun c hc => hex_ne_CR c (hdig c hc))
    rw [hf]
    dsimp only
    have htake : (encodeFrame fr).take fr.size_field.length = fr.size_field := by
      unfold encodeFrame
      exact List.take_left _ _
    rw [htake, hlen]
    rw [if_neg (by rw [encodeFrame_length]; omega)]
    have hdrop : (encodeFrame fr).drop (fr.size_field.length + 2) =
        fr.payload ++ ['\r', '\n'] := by
      unfold encodeFrame
      rw [show fr.size_field ++ '\r' :: '\n' :: (fr.payload ++ ['\r', '\n']) =
          (fr.size_field ++ ['\r', '\n']) ++ (fr.payload ++ ['\r', '\n']) from by simp]
      rw [show fr.size_field.length + 2 =
          (fr.size_field ++ ['\r', '\n']).length from by simp]
      exact List.drop_left _ _
    rw [hdrop, List.take_left]
    have hbuf : (encodeFrame fr).drop
        (fr.size_field.length + 2 + fr.payload.length + 2) = [] := by
      rw [← encodeFrame_length]
      exact List.drop_length _
    rw [hbuf]
    rw [ih (fun x hx => hwf x (List.mem_cons_of_mem fr hx))]
    rfl

/-- C7, amended: for every sequence of well-formed frames and every
partition of the concatenated bytes into socket reads, the reader delivers
a *prefix* of the frame payload sequence (each delivered payload is
exactly the hex-size bytes of its frame, and an incomplete frame never
produces output); each read delivers at most one frame, so when each read
carries exactly one complete frame the full identical sequence is
delivered — but the output is *not* a function of the concatenated stream
alone (see the counterexample). -/
theorem c7_framer_prefix_exact (frames : List ChunkedFrame)
    (chunks : List (List Char))
    (hwf : ∀ fr ∈ frames, fr.WF)
    (hstream : chunks.flatten = encodeFrames frames) :
    (watchRead [] chunks <+: frames.map ChunkedFrame.payload) ∧
    (∀ (b ch : List Char), (readChunk b ch).1 = [] ∨
      ∃ p, (readChunk b ch).1 = [p]) ∧
    (chunks = frames.map encodeFrame →
      watchRead [] chunks = frames.map ChunkedFrame.payload) := by
  refine ⟨watchRead_prefix_aux chunks [] frames hwf
      (by rw [List.nil_append]; exact hstream), ?_, ?_⟩
  · intro b ch
    simp only [readChunk]
    cases findCRLF (b ++ ch) with
    | none => exact Or.inl rfl
    | some i =>
      dsimp only
      split
      · exact Or.inl rfl
      · exact Or.inr ⟨_, rfl⟩
  · intro hc
    rw [hc]
    exact watchRead_exact frames hwf

/-- C7, counterexample to the claim as stated: the same concatenated byte
stream of two well-formed one-byte frames, read either as one socket read
or as two, yields different delivered sequences — only the first payload
is delivered when both frames arrive in a single read. -/
theorem c7_framer_counterexample :
    List.flatten [encodeFrame ⟨['1'], ['a']⟩ ++ encodeFrame ⟨['1'], ['b']⟩] =
        List.flatten [encodeFrame ⟨['1'], ['a']⟩, encodeFrame ⟨['1'], ['b']⟩] ∧
    (⟨['1'], ['a']⟩ : ChunkedFrame).WF ∧ (⟨['1'], ['b']⟩ : ChunkedFrame).WF ∧
    watchRead [] [encodeFrame ⟨['1'], ['a']⟩ ++ encodeFrame ⟨['1'], ['b']⟩] =
        [['a']] ∧
    watchRead [] [encodeFrame ⟨['1'], ['a']⟩, encodeFrame ⟨['1'], ['b']⟩] =
        [['a'], ['b']] := by
  refine ⟨by decide, ?_, ?_, by decide, by decide⟩
  · exact ⟨by decide, by decide, by decide, by decide⟩
  · exact ⟨by decide, by decide, by decide, by decide⟩

/-- Witness for `c7_framer_prefix_exact`: one 3-byte frame split at an
arbitrary byte boundary across two reads. -/
theorem c7_framer_witness :
    (watchRead [] [['3', '\r'], ['\n', 'x', 'y', 'z', '\r', '\n']] <+:
      ([⟨['3'], ['x', 'y', 'z']⟩] : List ChunkedFrame).map ChunkedFrame.payload) ∧
    (∀ (b ch : List Char), (readChunk b ch).1 = [] ∨
      ∃ p, (readChunk b ch).1 = [p]) ∧
    ([['3', '\r'], ['\n', 'x', 'y', 'z', '\r', '\n']] =
        ([⟨['3'], ['x', 'y', 'z']⟩] : List ChunkedFrame).map encodeFrame →
      watchRead [] [['3', '\r'], ['\n', 'x', 'y', 'z', '\r', '\n']] =
        ([⟨['3'], ['x', 'y', 'z']⟩] : List ChunkedFrame).map ChunkedFrame.payload) :=
  c7_framer_prefix_exact [⟨['3'], ['x', 'y', 'z']⟩]
    [['3', '\r'], ['\n', 'x', 'y', 'z', '\r', '\n']]
    (by intro fr hfr
        rw [List.mem_singleton] at hfr
        subst hfr
        exact ⟨by decide, by decide, by decide, by decide⟩)
    (by decide)

end Framer

end Dockermon
